import Mathlib

/-!
Verification of the transcription app (src/app.py, src/utils.py) against its
natural-language specification.

The UI layer, the external AI provider, and the filesystem are abstracted:
uploads, decode/export outcomes and provider results are parameters, and the
handler of app.py is embedded as a pure function that also returns an event
trace and the set of temporary files still on disk when it finishes.
-/

/-! ### utils.py -/

/-- The names defined at module level in src/utils.py (lines 8, 21, 28, 44,
126, 135, 144).  Any other attribute access on the module raises
AttributeError. -/
def utilsDefinedNames : List String :=
  ["get_api_key", "get_gemini_client", "download_youtube_audio",
   "process_media_with_gemini", "summarize_text", "extract_key_ideas",
   "ask_question"]

/-- `getattr(utils, name)` followed by a call: if `name` is defined in
utils.py the (hypothetical) implementation `impl` runs, otherwise Python
raises AttributeError, modelled as an error result. -/
def utilsCall (impl : String → Except String String) (name : String) :
    Except String String :=
  if name ∈ utilsDefinedNames then impl name
  else Except.error ("module utils has no attribute " ++ name)

/-- utils.py lines 16-19: `if os.getenv("GEMINI_API_KEY"): return it else
return None`.  `env` maps a variable name to its value when the variable is
set.  Python truthiness: an environment variable set to the empty string is
falsy, so the branch falls through to `None`. -/
def envLookupKey (env : String → Option String) : Option String :=
  match env "GEMINI_API_KEY" with
  | some v => if v = "" then none else some v
  | none => none

/-- utils.py lines 8-19 (`get_api_key`).  `secrets = none` models
`st.secrets` raising (no secrets file): the `except` swallows it and the
code falls through to the environment lookup.  `secrets = some tbl` models a
readable secrets table; `"GEMINI_API_KEY" in st.secrets` then indexing is
the association-list lookup. -/
def get_api_key (secrets : Option (List (String × String)))
    (env : String → Option String) : Option String :=
  match secrets with
  | some tbl =>
    match tbl.lookup "GEMINI_API_KEY" with
    | some v => some v
    | none => envLookupKey env
  | none => envLookupKey env

/-! ### app.py module initialisation (lines 14-20) -/

/-- The message shown by app.py line 17 before `st.stop()`. -/
def appStopMessage : String :=
  "OPENAI_API_KEY not found. Please set it in .env or Streamlit Cloud Secrets."

/-- app.py lines 14-20: `api_key = utils.get_api_key(); if not api_key:
st.error(...); st.stop()` else `client = openai.OpenAI(api_key=api_key)`.
Result: the key the OpenAI client is constructed with, or `none` when the
app stops.  Python truthiness: `not api_key` is true both for `None` and for
an empty string. -/
def appClientKey (secrets : Option (List (String × String)))
    (env : String → Option String) : Option String :=
  match get_api_key secrets env with
  | none => none
  | some v => if v = "" then none else some v

/-! ### app.py tab1 transcribe handler (lines 31-69) -/

/-- Abstract name for the temporary file the upload is saved to
(app.py lines 35-37, `tmp_file_path`). -/
def uploadTmp : String := "tmp_upload"

/-- Abstract name for the temporary .mp3 file (app.py line 46,
`tmp_mp3.name`). -/
def mp3Tmp : String := "tmp_mp3"

/-- Observable events of one handler run, in program order. -/
inductive AppEvent where
  | saveUpload
  | reencode
  | measureSize (bytes : Nat)
  | dispatchWhole
  | dispatchChunked
  deriving DecidableEq

/-- The environment one press of the Transcribe button runs in: the upload,
the behaviour of the decoder/encoder (pydub), and the behaviour of the two
`utils` calls the handler dispatches to. -/
structure TranscribeEnv where
  uploadSize : Nat
  decodeOk : Bool
  exportOk : Bool
  mp3Size : Nat
  whole : Except String String
  chunked : Except String String

/-- app.py line 53: `if file_size_mb > 24` with
`file_size_mb = os.path.getsize(mp3) / (1024 * 1024)`.  The float division
of a file size (an integer below 2^53) by the power of two 2^20 is exact,
so the float comparison agrees with the exact integer comparison
`bytes > 24 * 1024 * 1024`. -/
def sizeDispatchChunked (sizeBytes : Nat) : Bool :=
  24 * 1024 * 1024 < sizeBytes

/-- Result of the `try` block, app.py lines 41-58. -/
structure TryOut where
  result : Except String String
  mp3Path : Option String
  filesCreated : List String
  events : List AppEvent

/-- app.py lines 41-58.  Line 44: `AudioSegment.from_file` may raise
(decode failure).  Line 46: `NamedTemporaryFile(delete=False)` creates the
.mp3 file on disk before the export runs.  Line 47: `audio.export` may
raise; only on its success is `converted_mp3_path` assigned (line 48).
Lines 51-58: size measurement and dispatch. -/
def tryBody (env : TranscribeEnv) : TryOut :=
  if env.decodeOk then
    if env.exportOk then
      let evs := [AppEvent.saveUpload, AppEvent.reencode,
                  AppEvent.measureSize env.mp3Size]
      if sizeDispatchChunked env.mp3Size then
        { result := env.chunked, mp3Path := some mp3Tmp,
          filesCreated := [uploadTmp, mp3Tmp],
          events := evs ++ [AppEvent.dispatchChunked] }
      else
        { result := env.whole, mp3Path := some mp3Tmp,
          filesCreated := [uploadTmp, mp3Tmp],
          events := evs ++ [AppEvent.dispatchWhole] }
    else
      { result := Except.error "could not encode mp3", mp3Path := none,
        filesCreated := [uploadTmp, mp3Tmp],
        events := [AppEvent.saveUpload, AppEvent.reencode] }
  else
    { result := Except.error "could not decode media", mp3Path := none,
      filesCreated := [uploadTmp],
      events := [AppEvent.saveUpload] }

/-- What one press of the Transcribe button leaves behind. -/
structure HandlerOut where
  success : Bool
  errorShown : Bool
  sessionTranscript : Option String
  remainingFiles : List String
  events : List AppEvent
  deriving DecidableEq

/-- app.py lines 31-69: the full handler.  `st0` is the prior value of
`st.session_state` key `transcript_text`.  Lines 60-61 run only when the
`try` body succeeded; line 64 shows the error otherwise; the `finally`
block (lines 65-69) removes `tmp_file_path` and, when it was assigned,
`converted_mp3_path`. -/
def runHandler (env : TranscribeEnv) (st0 : Option String) : HandlerOut :=
  let t := tryBody env
  let remaining := t.filesCreated.filter
    (fun f => decide (f ≠ uploadTmp ∧ t.mp3Path ≠ some f))
  match t.result with
  | Except.ok s =>
    { success := true, errorShown := false, sessionTranscript := some s,
      remainingFiles := remaining, events := t.events }
  | Except.error _ =>
    { success := false, errorShown := true, sessionTranscript := st0,
      remainingFiles := remaining, events := t.events }

/-- The handler as app.py actually runs it: the two dispatch targets are
attribute accesses on the `utils` module, resolved through `utilsCall`. -/
def appTranscribeEnv (impl : String → Except String String)
    (uploadSize : Nat) (decodeOk exportOk : Bool) (mp3Size : Nat) :
    TranscribeEnv :=
  { uploadSize := uploadSize, decodeOk := decodeOk, exportOk := exportOk,
    mp3Size := mp3Size,
    whole := utilsCall impl "transcribe_audio",
    chunked := utilsCall impl "split_and_transcribe" }

/-! ### Chunked transcription pipeline

Modelled from the spec: `utils.split_and_transcribe` is called from
app.py line 55 but is not defined in src/utils.py, so the chunked pipeline
below follows spec section 4.1 (Algorithm, steps 1-4) and section 5. -/

/-- Modelled from the spec: "Compute `chunkLen` = fixed constant (10 minutes
in ms)" (section 4.1 step 2). -/
def chunkLenMs : Nat := 10 * 60 * 1000

/-- Modelled from the spec: `n = ceil(D / chunkLen)` (section 4.1 step 2),
as natural-number ceiling division. -/
def numChunks (D L : Nat) : Nat := (D + L - 1) / L

/-- Modelled from the spec: chunk `i` covers
`[i * L, min((i + 1) * L, D))` (section 4.1 step 3a). -/
def chunkRange (L D i : Nat) : Nat × Nat := (i * L, min ((i + 1) * L) D)

/-- Modelled from the spec: the list of chunk ranges, in ascending index
order. -/
def chunkRanges (D L : Nat) : List (Nat × Nat) :=
  (List.range (numChunks D L)).map (chunkRange L D)

/-- Per-chunk resource/call events of the pipeline (spec section 4.1 steps
3b-3d): acquire the encoded blob, invoke the transcription capability,
release the blob. -/
inductive PipeEvent where
  | acquire (i : Nat)
  | invoke (i : Nat)
  | release (i : Nat)
  deriving DecidableEq

/-- The event block one chunk produces when it is processed. -/
def chunkBlock (i : Nat) : List PipeEvent :=
  [PipeEvent.acquire i, PipeEvent.invoke i, PipeEvent.release i]

/-- Concatenated event blocks of a list of chunk indices. -/
def blocksEvents (l : List Nat) : List PipeEvent :=
  l.foldr (fun i acc => chunkBlock i ++ acc) []

/-- Modelled from the spec: the sequential per-chunk loop (section 4.1 step
3): for each index in order, acquire the chunk blob, invoke `transcribeOne`,
release the blob; on failure abort at once, propagating the error and
producing no partial result; on success collect the part and continue. -/
def runChunks (t : Nat → Except String String) :
    List Nat → Except String (List String) × List PipeEvent
  | [] => (Except.ok [], [])
  | i :: rest =>
    match t i with
    | Except.error e => (Except.error e, chunkBlock i)
    | Except.ok s =>
      let r := runChunks t rest
      (r.1.map (fun ts => s :: ts), chunkBlock i ++ r.2)

/-- Number of chunks actually processed: everything up to and including the
first failing chunk, or all of them when none fails. -/
def processedCount (t : Nat → Except String String) : List Nat → Nat
  | [] => 0
  | i :: rest =>
    match t i with
    | Except.error _ => 1
    | Except.ok _ => processedCount t rest + 1

/-- `true` iff the call succeeded. -/
def exceptOk (x : Except String String) : Bool :=
  match x with
  | Except.ok _ => true
  | Except.error _ => false

/-- Modelled from the spec: run the per-chunk loop on a worklist of chunk
indices and join the collected parts with a single newline (section 4.1
step 4).  Returns the result together with the event trace. -/
def pipelineRun (t : Nat → Except String String) (l : List Nat) :
    Except String String × List PipeEvent :=
  ((runChunks t l).1.map (fun parts => String.intercalate "\n" parts),
   (runChunks t l).2)

/-- Modelled from the spec: the whole chunked pipeline (section 4.1):
split `[0, D)` into `numChunks D chunkLenMs` fixed-length chunks, transcribe
them in ascending index order (the worklist is `0, 1, ..., n-1`), and join
the parts with a single newline. -/
def splitAndTranscribe (D : Nat) (t : Nat → Except String String) :
    Except String String × List PipeEvent :=
  pipelineRun t (List.range (numChunks D chunkLenMs))

/-! ### Concrete instances used by the boundary scenarios of the spec -/

/-- The three stub transcription results of the 25-minute scenario. -/
def stubParts : Nat → String := fun i => ["a", "b", "c"].getD i ""

/-- A transcription capability that always succeeds with the stub parts. -/
def stubTranscribe : Nat → Except String String :=
  fun i => Except.ok (stubParts i)

/-- A transcription capability whose second chunk (index 1) fails. -/
def failTranscribe : Nat → Except String String :=
  fun i => if i = 1 then Except.error "boom" else Except.ok "x"

/-! ### Helper lemmas -/

/-- The handler's event trace is the trace of its `try` body: neither the
`except` nor the `finally` block emits further observable events. -/
theorem runHandler_events (env : TranscribeEnv) (st0 : Option String) :
    (runHandler env st0).events = (tryBody env).events := by
  simp only [runHandler]
  split <;> rfl

/-- The files left on disk after the handler are the files the `try` body
created minus what the `finally` block removes, on every path. -/
theorem runHandler_remainingFiles (env : TranscribeEnv) (st0 : Option String) :
    (runHandler env st0).remainingFiles =
      (tryBody env).filesCreated.filter
        (fun f => decide (f ≠ uploadTmp ∧ (tryBody env).mp3Path ≠ some f)) := by
  simp only [runHandler]
  split <;> rfl

/-! ### Claim theorems -/

/-- C1: The size-based dispatcher picks the whole-file transcription path
when the encoded MP3 size is at or below 24 MiB and the chunked path when it
is above 24 MiB (app.py line 53, `file_size_mb > 24` on the converted MP3).
In particular 24.0 MiB (25165824 bytes) goes to the whole-file path and
24.1 MiB (about 25270026 bytes) to the chunked path. -/
theorem size_dispatch_boundary (env : TranscribeEnv) (st0 : Option String)
    (hd : env.decodeOk = true) (he : env.exportOk = true) :
    (env.mp3Size ≤ 24 * 1024 * 1024 →
      AppEvent.dispatchWhole ∈ (runHandler env st0).events ∧
      AppEvent.dispatchChunked ∉ (runHandler env st0).events) ∧
    (24 * 1024 * 1024 < env.mp3Size →
      AppEvent.dispatchChunked ∈ (runHandler env st0).events ∧
      AppEvent.dispatchWhole ∉ (runHandler env st0).events) := by
  rw [runHandler_events]
  constructor
  · intro hle
    have hsd : sizeDispatchChunked env.mp3Size = false := by
      simp only [sizeDispatchChunked, decide_eq_false_iff_not]
      omega
    simp [tryBody, hd, he, hsd]
  · intro hlt
    have hsd : sizeDispatchChunked env.mp3Size = true := by
      simpa [sizeDispatchChunked] using hlt
    simp [tryBody, hd, he, hsd]

/-- Witness for C1 at the two documented boundary sizes: 25165824 bytes
(exactly 24.0 MiB) is dispatched whole, 25270026 bytes (about 24.1 MiB) is
dispatched chunked. -/
theorem size_dispatch_boundary_witness :
    (AppEvent.dispatchWhole ∈
      (runHandler ⟨30000000, true, true, 25165824, Except.ok "w",
        Except.ok "c"⟩ none).events ∧
     AppEvent.dispatchChunked ∉
      (runHandler ⟨30000000, true, true, 25165824, Except.ok "w",
        Except.ok "c"⟩ none).events) ∧
    (AppEvent.dispatchChunked ∈
      (runHandler ⟨30000000, true, true, 25270026, Except.ok "w",
        Except.ok "c"⟩ none).events ∧
     AppEvent.dispatchWhole ∉
      (runHandler ⟨30000000, true, true, 25270026, Except.ok "w",
        Except.ok "c"⟩ none).events) :=
  ⟨(size_dispatch_boundary _ none rfl rfl).1 (by decide),
   (size_dispatch_boundary _ none rfl rfl).2 (by decide)⟩

/-- C2: when a transcription path runs (decode and export both succeeded),
the source was transcoded to MP3 exactly once before the dispatch, and the
size used for dispatch is the transcoded MP3 size, not the size of the
original upload (app.py lines 42-58). -/
theorem reencode_once_before_dispatch (env : TranscribeEnv)
    (st0 : Option String) (hd : env.decodeOk = true)
    (he : env.exportOk = true) :
    (runHandler env st0).events =
      [AppEvent.saveUpload, AppEvent.reencode,
       AppEvent.measureSize env.mp3Size,
       if sizeDispatchChunked env.mp3Size then AppEvent.dispatchChunked
       else AppEvent.dispatchWhole] ∧
    ((runHandler env st0).events).count AppEvent.reencode = 1 := by
  rw [runHandler_events]
  have hev : (tryBody env).events =
      [AppEvent.saveUpload, AppEvent.reencode,
       AppEvent.measureSize env.mp3Size,
       if sizeDispatchChunked env.mp3Size then AppEvent.dispatchChunked
       else AppEvent.dispatchWhole] := by
    simp only [tryBody, hd, he, if_true]
    cases hsd : sizeDispatchChunked env.mp3Size <;> simp [hsd]
  rw [hev]
  refine ⟨rfl, ?_⟩
  cases sizeDispatchChunked env.mp3Size <;> rfl

/-- Witness for C2: a run whose upload is 999 bytes but whose transcoded
MP3 is 5 bytes measures 5 bytes and re-encodes once. -/
theorem reencode_once_before_dispatch_witness :
    (runHandler ⟨999, true, true, 5, Except.ok "w", Except.ok "c"⟩
        none).events =
      [AppEvent.saveUpload, AppEvent.reencode, AppEvent.measureSize 5,
       if sizeDispatchChunked 5 then AppEvent.dispatchChunked
       else AppEvent.dispatchWhole] ∧
    ((runHandler ⟨999, true, true, 5, Except.ok "w", Except.ok "c"⟩
        none).events).count AppEvent.reencode = 1 :=
  reencode_once_before_dispatch _ none rfl rfl

/-- C3: neither `utils.split_and_transcribe` nor `utils.transcribe_audio`
is defined in src/utils.py, so whatever the lookup would dispatch to, every
press of Transcribe ends in the error branch: no run succeeds and the
stored transcript is never written. -/
theorem transcribe_targets_missing (impl : String → Except String String)
    (uploadSize : Nat) (decodeOk exportOk : Bool) (mp3Size : Nat)
    (st0 : Option String) :
    "split_and_transcribe" ∉ utilsDefinedNames ∧
    "transcribe_audio" ∉ utilsDefinedNames ∧
    (runHandler (appTranscribeEnv impl uploadSize decodeOk exportOk mp3Size)
      st0).success = false ∧
    (runHandler (appTranscribeEnv impl uploadSize decodeOk exportOk mp3Size)
      st0).errorShown = true ∧
    (runHandler (appTranscribeEnv impl uploadSize decodeOk exportOk mp3Size)
      st0).sessionTranscript = st0 := by
  have hw : utilsCall impl "transcribe_audio" =
      Except.error ("module utils has no attribute " ++ "transcribe_audio") := by
    unfold utilsCall
    rw [if_neg (by decide)]
  have hc : utilsCall impl "split_and_transcribe" =
      Except.error ("module utils has no attribute " ++ "split_and_transcribe") := by
    unfold utilsCall
    rw [if_neg (by decide)]
  refine ⟨by decide, by decide, ?_⟩
  have herr : ∃ e, (tryBody (appTranscribeEnv impl uploadSize decodeOk
      exportOk mp3Size)).result = Except.error e := by
    cases decodeOk <;> cases exportOk <;>
      simp only [tryBody, appTranscribeEnv, Bool.false_eq_true, if_false,
        if_true] <;>
      first
      | exact ⟨_, rfl⟩
      | (cases hsd : sizeDispatchChunked mp3Size <;> simp [hsd, hw, hc])
  obtain ⟨e, he⟩ := herr
  simp only [runHandler, he]
  exact ⟨trivial, trivial, trivial⟩

/-- C9: the stored transcript (`st.session_state` key `transcript_text`,
app.py line 61) is written only on a fully successful run; a failed run
leaves it unchanged, so an earlier transcript survives a later failure
(app.py lines 60-73). -/
theorem session_transcript_frame (env : TranscribeEnv) (st0 : Option String) :
    ((runHandler env st0).success = false →
      (runHandler env st0).sessionTranscript = st0) ∧
    ((runHandler env st0).success = true →
      ∃ s, (runHandler env st0).sessionTranscript = some s ∧
        (env.whole = Except.ok s ∨ env.chunked = Except.ok s)) ∧
    (∀ old, st0 = some old → (runHandler env st0).success = false →
      (runHandler env st0).sessionTranscript = some old) := by
  have core : ((runHandler env st0).success = false →
      (runHandler env st0).sessionTranscript = st0) ∧
      ((runHandler env st0).success = true →
        ∃ s, (runHandler env st0).sessionTranscript = some s ∧
          (env.whole = Except.ok s ∨ env.chunked = Except.ok s)) := by
    obtain ⟨us, dOk, eOk, ms, w, ch⟩ := env
    cases dOk with
    | false => exact ⟨fun _ => rfl, fun h => by simp [runHandler, tryBody] at h⟩
    | true =>
      cases eOk with
      | false => exact ⟨fun _ => rfl, fun h => by simp [runHandler, tryBody] at h⟩
      | true =>
        cases hsd : sizeDispatchChunked ms with
        | true =>
          cases ch with
          | ok s =>
            refine ⟨fun h => ?_, fun _ => ⟨s, ?_, Or.inr rfl⟩⟩
            · simp [runHandler, tryBody, hsd] at h
            · simp [runHandler, tryBody, hsd]
          | error e =>
            refine ⟨fun _ => ?_, fun h => ?_⟩
            · simp [runHandler, tryBody, hsd]
            · simp [runHandler, tryBody, hsd] at h
        | false =>
          cases w with
          | ok s =>
            refine ⟨fun h => ?_, fun _ => ⟨s, ?_, Or.inl rfl⟩⟩
            · simp [runHandler, tryBody, hsd] at h
            · simp [runHandler, tryBody, hsd]
          | error e =>
            refine ⟨fun _ => ?_, fun h => ?_⟩
            · simp [runHandler, tryBody, hsd]
            · simp [runHandler, tryBody, hsd] at h
  exact ⟨core.1, core.2, fun old h hf => by rw [core.1 hf, h]⟩

/-- Witness for C9: a failing run (the decoder raises) keeps the earlier
transcript stored. -/
theorem session_transcript_frame_witness :
    (runHandler ⟨7, false, true, 0, Except.ok "w", Except.ok "c"⟩
      (some "earlier")).success = false ∧
    (runHandler ⟨7, false, true, 0, Except.ok "w", Except.ok "c"⟩
      (some "earlier")).sessionTranscript = some "earlier" :=
  ⟨rfl, (session_transcript_frame
    ⟨7, false, true, 0, Except.ok "w", Except.ok "c"⟩ (some "earlier")).2.2
      "earlier" rfl rfl⟩

/-- Every chunk blob the pipeline acquires is also released, on the success
path and on the abort path alike. -/
theorem runChunks_release_iff (t : Nat → Except String String) (i : Nat) :
    ∀ l : List Nat,
      (PipeEvent.acquire i ∈ (runChunks t l).2 ↔
       PipeEvent.release i ∈ (runChunks t l).2) := by
  intro l
  induction l with
  | nil => simp [runChunks]
  | cons j rest ih =>
    cases h : t j with
    | error e => simp [runChunks, h, chunkBlock]
    | ok s => simp [runChunks, h, chunkBlock, ih]

/-- `splitAndTranscribe` runs the worklist pipeline on the ascending index
list. -/
theorem splitAndTranscribe_def (D : Nat) (t : Nat → Except String String) :
    splitAndTranscribe D t =
      pipelineRun t (List.range (numChunks D chunkLenMs)) := rfl

/-- The trace of the pipeline is the trace of its chunk loop. -/
theorem pipelineRun_snd (t : Nat → Except String String) (l : List Nat) :
    (pipelineRun t l).2 = (runChunks t l).2 := rfl

/-- Counterexample to C7: when the MP3 export itself raises (app.py line
47), the .mp3 temporary file that `NamedTemporaryFile(delete=False)`
already created at line 46 is never recorded in `converted_mp3_path`, so
the `finally` block cannot remove it and it is left on disk. -/
theorem mp3_leak_cex :
    (runHandler ⟨7, true, false, 0, Except.ok "w", Except.ok "c"⟩
      none).remainingFiles = [mp3Tmp] ∧
    (runHandler ⟨7, true, false, 0, Except.ok "w", Except.ok "c"⟩
      none).remainingFiles ≠ [] := by
  exact ⟨rfl, by decide⟩

/-- C7 as amended: the saved upload is always removed; all temporary files
are removed whenever the decode fails or the export succeeds (in
particular on every path that runs a transcription and on every
transcription failure); and, in the spec-modelled chunked pipeline, every
per-chunk blob that is acquired is released, on success and on abort
alike.  Only the path where the MP3 export itself raises leaks the
just-created .mp3 temporary file. -/
theorem cleanup_amended (env : TranscribeEnv) (st0 : Option String)
    (D : Nat) (t : Nat → Except String String) :
    uploadTmp ∉ (runHandler env st0).remainingFiles ∧
    (env.decodeOk = false ∨ env.exportOk = true →
      (runHandler env st0).remainingFiles = []) ∧
    (∀ i, PipeEvent.acquire i ∈ (splitAndTranscribe D t).2 ↔
          PipeEvent.release i ∈ (splitAndTranscribe D t).2) := by
  refine ⟨?_, ?_, ?_⟩
  · rw [runHandler_remainingFiles]
    intro h
    rw [List.mem_filter] at h
    simp at h
  · intro hcase
    rw [runHandler_remainingFiles]
    obtain ⟨us, dOk, eOk, ms, w, ch⟩ := env
    rcases hcase with h | h
    · simp only at h
      subst h
      rfl
    · simp only at h
      subst h
      cases dOk with
      | false => rfl
      | true =>
        simp only [tryBody]
        cases hsd : sizeDispatchChunked ms <;> simp [hsd, uploadTmp, mp3Tmp]
  · intro i
    rw [splitAndTranscribe_def, pipelineRun_snd]
    exact runChunks_release_iff t i (List.range (numChunks D chunkLenMs))

/-- Witness for C7 as amended: a successful-export run leaves no temporary
file behind. -/
theorem cleanup_amended_witness :
    uploadTmp ∉ (runHandler ⟨1, true, true, 10, Except.ok "w",
      Except.ok "c"⟩ none).remainingFiles ∧
    (runHandler ⟨1, true, true, 10, Except.ok "w", Except.ok "c"⟩
      none).remainingFiles = [] :=
  ⟨(cleanup_amended ⟨1, true, true, 10, Except.ok "w", Except.ok "c"⟩ none
      0 stubTranscribe).1,
   (cleanup_amended ⟨1, true, true, 10, Except.ok "w", Except.ok "c"⟩ none
      0 stubTranscribe).2.1 (Or.inr rfl)⟩

/-- C4: for positive duration `D` and chunk length `L`, the pipeline
produces `ceil(D / L)` chunks; chunk `i` covers `[i*L, min((i+1)*L, D))`;
the ranges cover `[0, D)` exactly, with no gaps and no overlaps.  The first
two conjuncts state that `numChunks D L` is the ceiling of `D / L`: it is
large enough and one less is too small. -/
theorem chunks_partition (D L : Nat) (hD : 0 < D) (hL : 0 < L) :
    D ≤ numChunks D L * L ∧
    (numChunks D L - 1) * L < D ∧
    (chunkRanges D L).length = numChunks D L ∧
    (∀ i, i < numChunks D L →
      (chunkRanges D L)[i]? = some (i * L, min ((i + 1) * L) D)) ∧
    (∀ x, x < D ↔ ∃ i, i < numChunks D L ∧
      i * L ≤ x ∧ x < min ((i + 1) * L) D) ∧
    (∀ x i j, i * L ≤ x → x < min ((i + 1) * L) D →
      j * L ≤ x → x < min ((j + 1) * L) D → i = j) := by
  have key : ∀ a : Nat, a < (a / L + 1) * L := by
    intro a
    calc a = L * (a / L) + a % L := (Nat.div_add_mod a L).symm
    _ < L * (a / L) + L := by
        have := Nat.mod_lt a hL
        omega
    _ = (a / L + 1) * L := by ring
  have hn : numChunks D L = (D - 1) / L + 1 := by
    unfold numChunks
    have h1 : D + L - 1 = (D - 1) + L := by omega
    rw [h1, Nat.add_div_right _ hL]
  refine ⟨?_, ?_, ?_, ?_, ?_, ?_⟩
  · have h1 := key (D + L - 1)
    have h2 : (numChunks D L + 1) * L = numChunks D L * L + L := by ring
    unfold numChunks at *
    omega
  · rw [hn]
    simp only [Nat.add_sub_cancel]
    have h1 : (D - 1) / L * L ≤ D - 1 := Nat.div_mul_le_self _ _
    omega
  · simp [chunkRanges]
  · intro i hi
    simp [chunkRanges, hi, chunkRange]
  · intro x
    constructor
    · intro hx
      refine ⟨x / L, ?_, ?_, ?_⟩
      · rw [hn]
        have h1 : x / L ≤ (D - 1) / L := Nat.div_le_div_right (by omega)
        omega
      · exact Nat.div_mul_le_self x L
      · exact lt_min (key x) hx
    · rintro ⟨i, _, _, h2⟩
      exact lt_of_lt_of_le h2 (min_le_right _ _)
  · intro x i j h1 h2 h3 h4
    have h2' : x < (i + 1) * L := lt_of_lt_of_le h2 (min_le_left _ _)
    have h4' : x < (j + 1) * L := lt_of_lt_of_le h4 (min_le_left _ _)
    rcases lt_trichotomy i j with h | h | h
    · exfalso
      have : (i + 1) * L ≤ j * L := Nat.mul_le_mul_right L h
      omega
    · exact h
    · exfalso
      have : (j + 1) * L ≤ i * L := Nat.mul_le_mul_right L h
      omega

/-- Witness for C4 at the 25-minute scenario in milliseconds with
10-minute chunks. -/
theorem chunks_partition_witness :
    0 < 1500000 ∧ 0 < chunkLenMs ∧
    (1500000 ≤ numChunks 1500000 chunkLenMs * chunkLenMs ∧
    (numChunks 1500000 chunkLenMs - 1) * chunkLenMs < 1500000 ∧
    (chunkRanges 1500000 chunkLenMs).length = numChunks 1500000 chunkLenMs ∧
    (∀ i, i < numChunks 1500000 chunkLenMs →
      (chunkRanges 1500000 chunkLenMs)[i]? =
        some (i * chunkLenMs, min ((i + 1) * chunkLenMs) 1500000)) ∧
    (∀ x, x < 1500000 ↔ ∃ i, i < numChunks 1500000 chunkLenMs ∧
      i * chunkLenMs ≤ x ∧ x < min ((i + 1) * chunkLenMs) 1500000) ∧
    (∀ x i j, i * chunkLenMs ≤ x → x < min ((i + 1) * chunkLenMs) 1500000 →
      j * chunkLenMs ≤ x → x < min ((j + 1) * chunkLenMs) 1500000 →
      i = j)) :=
  ⟨by decide, by decide,
   chunks_partition 1500000 chunkLenMs (by decide) (by decide)⟩

/-- When every chunk in the worklist succeeds, the pipeline loop returns
the parts in worklist order and the trace processes each chunk as a
contiguous acquire/invoke/release block. -/
theorem runChunks_ok (t : Nat → Except String String) (p : Nat → String) :
    ∀ l : List Nat, (∀ i ∈ l, t i = Except.ok (p i)) →
      runChunks t l = (Except.ok (l.map p), blocksEvents l) := by
  intro l
  induction l with
  | nil => intro _; rfl
  | cons j rest ih =>
    intro h
    have hj := h j (by simp)
    have hrest : ∀ i ∈ rest, t i = Except.ok (p i) :=
      fun i hi => h i (by simp [hi])
    simp [runChunks, hj, ih hrest, blocksEvents, Except.map]

/-- When every chunk in the worklist succeeds, the pipeline joins the
parts in worklist order. -/
theorem pipelineRun_ok (t : Nat → Except String String) (p : Nat → String)
    (l : List Nat) (h : ∀ i ∈ l, t i = Except.ok (p i)) :
    (pipelineRun t l).1 =
      Except.ok (String.intercalate "\n" (l.map p)) := by
  unfold pipelineRun
  rw [runChunks_ok t p l h]
  rfl

/-- A failing chunk loop yields the same error from the pipeline. -/
theorem pipelineRun_error (t : Nat → Except String String) (l : List Nat)
    (e : String) (h : (runChunks t l).1 = Except.error e) :
    (pipelineRun t l).1 = Except.error e := by
  unfold pipelineRun
  rw [h]
  rfl

/-- The pipeline trace is exactly the acquire/invoke/release blocks of the
processed chunks: everything up to and including the first failure, in
worklist order, one chunk at a time. -/
theorem runChunks_events (t : Nat → Except String String) :
    ∀ l : List Nat,
      (runChunks t l).2 = blocksEvents (l.take (processedCount t l)) := by
  intro l
  induction l with
  | nil => rfl
  | cons j rest ih =>
    cases h : t j with
    | error e => simp [runChunks, processedCount, h, blocksEvents, chunkBlock]
    | ok s => simp [runChunks, processedCount, h, ih, blocksEvents]

/-- When every chunk before `k` succeeds and chunk `k` fails with `e`, the
loop over `l1 ++ k :: l2` returns exactly `e` and never invokes a chunk
beyond `k`. -/
theorem runChunks_first_error (t : Nat → Except String String) (e : String)
    (k : Nat) (hk : t k = Except.error e) :
    ∀ l1 l2 : List Nat, (∀ i ∈ l1, exceptOk (t i) = true) →
      (runChunks t (l1 ++ k :: l2)).1 = Except.error e ∧
      (∀ j, PipeEvent.invoke j ∈ (runChunks t (l1 ++ k :: l2)).2 →
        j ∈ l1 ∨ j = k) := by
  intro l1
  induction l1 with
  | nil =>
    intro l2 _
    constructor
    · simp [runChunks, hk]
    · intro j hj
      simp [runChunks, hk, chunkBlock] at hj
      exact Or.inr hj
  | cons m rest ih =>
    intro l2 hok
    have hm : exceptOk (t m) = true := hok m (by simp)
    obtain ⟨s, hs⟩ : ∃ s, t m = Except.ok s := by
      cases h : t m with
      | ok s => exact ⟨s, rfl⟩
      | error e' => rw [h] at hm; simp [exceptOk] at hm
    have hrest : ∀ i ∈ rest, exceptOk (t i) = true :=
      fun i hi => hok i (by simp [hi])
    have hih := ih l2 hrest
    constructor
    · simp [runChunks, hs, hih.1, Except.map]
    · intro j hj
      rw [List.cons_append] at hj
      simp only [runChunks, hs] at hj
      simp [chunkBlock] at hj
      rcases hj with h1 | h1
      · exact Or.inl (by simp [h1])
      · rcases hih.2 j h1 with h2 | h2
        · exact Or.inl (by simp [h2])
        · exact Or.inr h2

/-- C5: when every per-chunk transcription succeeds, the final transcript
is the parts joined with a single newline in ascending chunk-index order
(spec section 4.1 step 4). -/
theorem join_parts_in_order (D : Nat) (t : Nat → Except String String)
    (p : Nat → String)
    (h : ∀ i, i < numChunks D chunkLenMs → t i = Except.ok (p i)) :
    (splitAndTranscribe D t).1 =
      Except.ok (String.intercalate "\n"
        ((List.range (numChunks D chunkLenMs)).map p)) := by
  rw [splitAndTranscribe_def]
  exact pipelineRun_ok t p (List.range (numChunks D chunkLenMs))
    (fun i hi => h i (List.mem_range.mp hi))

/-- Witness for C5: the 25-minute source yields exactly 3 chunks of
lengths 10, 10 and 5 minutes, and the stub results "a", "b", "c" join to
the transcript with newline separators. -/
theorem join_parts_in_order_witness :
    (∀ i, i < numChunks 1500000 chunkLenMs →
      stubTranscribe i = Except.ok (stubParts i)) ∧
    (splitAndTranscribe 1500000 stubTranscribe).1 =
      Except.ok "a\nb\nc" ∧
    numChunks 1500000 chunkLenMs = 3 ∧
    (chunkRanges 1500000 chunkLenMs).map (fun r => r.2 - r.1) =
      [600000, 600000, 300000] :=
  ⟨fun _ _ => rfl,
   (join_parts_in_order 1500000 stubTranscribe stubParts
      (fun _ _ => rfl)).trans (congrArg Except.ok (by decide)),
   by decide, by decide⟩

/-- C6: if every chunk before `k` succeeds and chunk `k` fails, the
pipeline returns exactly that error — no partial transcript — and no chunk
after `k` is ever invoked (spec section 4.1 step 3e). -/
theorem abort_on_first_failure (D k : Nat)
    (t : Nat → Except String String) (e : String)
    (hk : k < numChunks D chunkLenMs)
    (hok : ∀ i, i < k → exceptOk (t i) = true)
    (he : t k = Except.error e) :
    (splitAndTranscribe D t).1 = Except.error e ∧
    ∀ j, PipeEvent.invoke j ∈ (splitAndTranscribe D t).2 → j ≤ k := by
  obtain ⟨m, hm⟩ : ∃ m, numChunks D chunkLenMs = (k + 1) + m :=
    ⟨numChunks D chunkLenMs - (k + 1), by omega⟩
  have hsplit : List.range (numChunks D chunkLenMs) =
      List.range k ++ k :: (List.range m).map (fun x => k + 1 + x) := by
    rw [hm, List.range_add, List.range_succ, List.append_assoc,
      List.singleton_append]
  have hfe := runChunks_first_error t e k he (List.range k)
    ((List.range m).map (fun x => k + 1 + x))
    (fun i hi => hok i (List.mem_range.mp hi))
  rw [← hsplit] at hfe
  constructor
  · rw [splitAndTranscribe_def]
    exact pipelineRun_error t (List.range (numChunks D chunkLenMs)) e hfe.1
  · intro j hj
    rw [splitAndTranscribe_def, pipelineRun_snd] at hj
    rcases hfe.2 j hj with h | h
    · exact le_of_lt (List.mem_range.mp h)
    · omega

/-- Witness for C6: with the 3-chunk 25-minute source and a capability
whose second chunk (index 1) fails, the result is that error and the third
chunk (index 2) is never invoked. -/
theorem abort_on_first_failure_witness :
    1 < numChunks 1500000 chunkLenMs ∧
    (splitAndTranscribe 1500000 failTranscribe).1 =
      Except.error "boom" ∧
    PipeEvent.invoke 2 ∉ (splitAndTranscribe 1500000 failTranscribe).2 := by
  have h := abort_on_first_failure 1500000 1 failTranscribe "boom"
    (by decide) (by decide) rfl
  exact ⟨by decide, h.1, fun hmem => absurd (h.2 2 hmem) (by decide)⟩

/-- C8: the pipeline trace consists of the acquire/invoke/release blocks
of the processed chunks, taken from the ascending worklist `0, 1, ...` in
order — chunks are handled strictly sequentially, one at a time, in
ascending index — and on full success the parts are concatenated in
ascending chunk index. -/
theorem sequential_ascending_order (D : Nat)
    (t : Nat → Except String String) (p : Nat → String) :
    ((splitAndTranscribe D t).2 =
      blocksEvents ((List.range (numChunks D chunkLenMs)).take
        (processedCount t (List.range (numChunks D chunkLenMs))))) ∧
    ((∀ i, i < numChunks D chunkLenMs → t i = Except.ok (p i)) →
      (splitAndTranscribe D t).1 =
        Except.ok (String.intercalate "\n"
          ((List.range (numChunks D chunkLenMs)).map p))) := by
  constructor
  · rw [splitAndTranscribe_def, pipelineRun_snd]
    exact runChunks_events t (List.range (numChunks D chunkLenMs))
  · intro h
    rw [splitAndTranscribe_def]
    exact pipelineRun_ok t p (List.range (numChunks D chunkLenMs))
      (fun i hi => h i (List.mem_range.mp hi))

/-- Witness for C8: on the 3-chunk scenario the trace is the three blocks
for indices 0, 1, 2 in ascending order and the transcript keeps that
order. -/
theorem sequential_ascending_order_witness :
    (splitAndTranscribe 1500000 stubTranscribe).2 =
      blocksEvents [0, 1, 2] ∧
    (splitAndTranscribe 1500000 stubTranscribe).1 =
      Except.ok "a\nb\nc" := by
  have h := sequential_ascending_order 1500000 stubTranscribe stubParts
  exact ⟨h.1.trans (by decide),
    (h.2 (fun _ _ => rfl)).trans (congrArg Except.ok (by decide))⟩

/-- Counterexample to C10.  First input: the secrets table holds
GEMINI_API_KEY with the empty string — `get_api_key` returns it (not
None), yet the app stops (`if not api_key` is true for an empty string)
instead of constructing the client with it.  Second input: the
GEMINI_API_KEY environment variable is set, to the empty string — the
claim says the env value is returned, but `if os.getenv(...)` is falsy and
the code returns None. -/
theorem api_key_cex :
    get_api_key (some [("GEMINI_API_KEY", "")]) (fun _ => none) =
      some "" ∧
    appClientKey (some [("GEMINI_API_KEY", "")]) (fun _ => none) =
      none ∧
    get_api_key none (fun _ => some "") = none := by
  exact ⟨rfl, rfl, rfl⟩

/-- C10 as amended: `get_api_key` returns the GEMINI_API_KEY entry of
`st.secrets` when readable and present (even if empty), otherwise the
GEMINI_API_KEY environment variable when it is set to a non-empty value,
otherwise None; the app stops — with a message naming OPENAI_API_KEY —
exactly when the returned key is None or empty, and otherwise this
Gemini-named key is the one the OpenAI client is constructed with. -/
theorem api_key_amended (secrets : Option (List (String × String)))
    (env : String → Option String) :
    (∀ tbl v, secrets = some tbl →
      tbl.lookup "GEMINI_API_KEY" = some v →
      get_api_key secrets env = some v) ∧
    ((secrets = none ∨
      ∃ tbl, secrets = some tbl ∧ tbl.lookup "GEMINI_API_KEY" = none) →
      get_api_key secrets env = envLookupKey env) ∧
    (∀ v, env "GEMINI_API_KEY" = some v → v ≠ "" →
      envLookupKey env = some v) ∧
    (env "GEMINI_API_KEY" = none ∨ env "GEMINI_API_KEY" = some "" →
      envLookupKey env = none) ∧
    (∀ v, get_api_key secrets env = some v → v ≠ "" →
      appClientKey secrets env = some v) ∧
    (get_api_key secrets env = none ∨ get_api_key secrets env = some "" →
      appClientKey secrets env = none) ∧
    appStopMessage = "OPENAI_API_KEY" ++
      " not found. Please set it in .env or Streamlit Cloud Secrets." := by
  refine ⟨?_, ?_, ?_, ?_, ?_, ?_, by decide⟩
  · intro tbl v hs hv
    subst hs
    simp [get_api_key, hv]
  · intro hcase
    rcases hcase with h | ⟨tbl, h, hv⟩
    · subst h; rfl
    · subst h; simp [get_api_key, hv]
  · intro v hv hne
    simp [envLookupKey, hv, hne]
  · intro hcase
    rcases hcase with h | h <;> simp [envLookupKey, h]
  · intro v hv hne
    simp [appClientKey, hv, hne]
  · intro hcase
    rcases hcase with h | h <;> simp [appClientKey, h]

/-- Witness for C10 as amended: with no secrets file and the environment
variable set to a non-empty value, the key is returned and the client is
constructed with it. -/
theorem api_key_amended_witness :
    get_api_key none (fun _ => some "k") = some "k" ∧
    appClientKey none (fun _ => some "k") = some "k" := by
  have h := api_key_amended none (fun _ => some "k")
  have h1 : get_api_key none (fun _ => some "k") = some "k" :=
    (h.2.1 (Or.inl rfl)).trans (h.2.2.1 "k" rfl (by decide))
  exact ⟨h1, h.2.2.2.2.1 "k" h1 (by decide)⟩
